import Mathlib

/-!
# cloud-sql-sync: the orchestration core of `main.go`

A shallow embedding of the parts of `main.go` that drive a Cloud SQL backup and
restore: the two status polling loops of `main`, the selection functions
`LatestBackupRun` and `LatestOperation`, the readiness loop of
`ExecuteCloudSQLProxy`, and the control flow of `main` that ties them together.

External collaborators (the REST endpoints, Secret Manager, the proxy
subprocess, the database) are replaced by the answers they give; every call the
program makes is recorded as an `Event`, so that "is never reached" and "issues
exactly n fetches" are statements about the recorded trace.
-/

namespace CloudSqlSync

/-! ## Data model -/

deriving instance DecidableEq for Except

/-- An instant of `time.Time`, in nanoseconds counted from the zero `time.Time`.
`t.After(u)` compares instants, so it is `u < t`. -/
abbrev Time := Int

/-- The nested `BackupContext` struct of `InsertResult` and `Operation`. -/
structure BackupContext where
  backupID : String := ""
  kind : String := ""
  deriving DecidableEq, Repr

/-- Go struct `InsertResult`: the decoded answer of the backup creation call. -/
structure InsertResult where
  kind : String := ""
  targetLink : String := ""
  status : String := ""
  user : String := ""
  insertTime : Time := 0
  operationType : String := ""
  operationID : String := ""
  targetID : String := ""
  selfLink : String := ""
  targetProject : String := ""
  backupContext : BackupContext := {}
  deriving DecidableEq, Repr

/-- Go struct `BackupItem`: one backup run. -/
structure BackupItem where
  kind : String := ""
  status : String := ""
  enqueuedTime : Time := 0
  backupID : String := ""
  startTime : Time := 0
  endTime : Time := 0
  type : String := ""
  windowStartTime : Time := 0
  «instance» : String := ""
  selfLink : String := ""
  location : String := ""
  backupKind : String := ""
  deriving DecidableEq, Repr

/-- Go struct `BackupRunsList`. -/
structure BackupRunsList where
  kind : String := ""
  items : List BackupItem := []
  deriving DecidableEq, Repr

/-- Go struct `Operation`; `{}` is the zero value `Operation{}`. -/
structure Operation where
  status : String := ""
  operationID : String := ""
  insertTime : Time := 0
  startTime : Time := 0
  endTime : Time := 0
  operationType : String := ""
  targetID : String := ""
  backupContext : BackupContext := {}
  deriving DecidableEq, Repr

/-- Go struct `OperationsList`. -/
structure OperationsList where
  kind : String := ""
  items : List Operation := []
  deriving DecidableEq, Repr

/-- Go struct `PostResponse`: the decoded answer of the restore call. -/
structure PostResponse where
  kind : String := ""
  targetLink : String := ""
  status : String := ""
  user : String := ""
  insertTime : Time := 0
  operationType : String := ""
  operationID : String := ""
  targetID : String := ""
  selfLink : String := ""
  targetProject : String := ""
  deriving DecidableEq, Repr

/-! ## `sort.Slice`

`sort.Slice` belongs to the Go standard library. Its documentation promises a
sorted rearrangement of the slice and explicitly no stability, and asks of the
`less` function a transitive ordering. The functions below take the library
routine as a parameter that carries exactly this contract, so what is proved
about them holds for whichever algorithm the library runs. -/

/-- What `sort.Slice` asks of its `less` argument: irreflexive, transitive, and
"if both Less(i, j) and Less(j, k) are false, then Less(i, k) is false". -/
structure LessOrdering {α : Type} (less : α → α → Bool) : Prop where
  irrefl : ∀ a, less a a = false
  trans : ∀ a b c, less a b = true → less b c = true → less a c = true
  negTrans : ∀ a b c, less a b = false → less b c = false → less a c = false

/-- The library routine `sort.Slice` together with its documented contract: the
result is a rearrangement of the slice, and when `less` is an ordering no later
element must sort before an earlier one. -/
structure SortSlice where
  sort : {α : Type} → (α → α → Bool) → List α → List α
  perm : ∀ {α : Type} (less : α → α → Bool) (l : List α), (sort less l).Perm l
  sorted : ∀ {α : Type} (less : α → α → Bool) (l : List α), LessOrdering less →
    (sort less l).Pairwise (fun a b => less b a = false)

/-- Insertion sort, the algorithm `sort.Slice` runs on slices of at most twelve
elements; it meets the contract of `SortSlice`. -/
def insertionSortSlice : SortSlice where
  sort := fun less l => List.insertionSort (fun a b => less b a = false) l
  perm := fun less l => List.perm_insertionSort (fun a b => less b a = false) l
  sorted := by
    intro α less l h
    haveI : IsTotal α (fun a b => less b a = false) := ⟨fun a b => by
      show less b a = false ∨ less a b = false
      rcases Bool.eq_false_or_eq_true (less a b) with hab | hab
      · left
        rcases Bool.eq_false_or_eq_true (less b a) with hba | hba
        · have := h.trans a b a hab hba
          rw [h.irrefl a] at this
          exact absurd this (by decide)
        · exact hba
      · exact Or.inr hab⟩
    haveI : IsTrans α (fun a b => less b a = false) :=
      ⟨fun a b c hab hbc => h.negTrans c b a hbc hab⟩
    exact List.sorted_insertionSort (fun a b => less b a = false) l

theorem SortSlice.sort_ne_nil (S : SortSlice) {α : Type} (less : α → α → Bool)
    {l : List α} (h : l ≠ []) : S.sort less l ≠ [] := by
  intro hs
  have hp := S.perm less l
  rw [hs] at hp
  exact h (List.Perm.nil_eq hp).symm

/-! ## `LatestOperation` and `LatestBackupRun`

Both functions are modelled from the point where the HTTP answer has been
decoded: `.error e` stands for an error of `http.NewRequest`, `client.Do` or the
JSON decoder, which the function returns unchanged. -/

/-- The closure handed to `sort.Slice` in `LatestOperation`:
`filteredOperations[i].InsertTime.After(filteredOperations[j].InsertTime)`. -/
def insertedAfter (a b : Operation) : Bool := decide (b.insertTime < a.insertTime)

/-- The closure handed to `sort.Slice` in `LatestBackupRun`:
`Items[i].StartTime.After(Items[j].StartTime)`. -/
def startedAfter (a b : BackupItem) : Bool := decide (b.startTime < a.startTime)

/-- The filter loop of `LatestOperation`: the operations whose `OperationType` is
`RESTORE_VOLUME`, in list order. -/
def filterRestoreVolume : List Operation → List Operation
  | [] => []
  | operation :: rest =>
    if operation.operationType = "RESTORE_VOLUME" then
      operation :: filterRestoreVolume rest
    else filterRestoreVolume rest

/-- Go function `LatestOperation`, from the decoded operations list on. -/
def LatestOperation (S : SortSlice) : Except String OperationsList → Except String Operation
  | .error e => .error e
  | .ok operationsList =>
    match S.sort insertedAfter (filterRestoreVolume operationsList.items) with
    | [] => .ok {}
    | first :: _ => .ok first

/-- Go function `LatestBackupRun`, from the decoded backup runs list on. The
index expression `Items[0]` is evaluated on the sorted, non-empty slice. -/
def LatestBackupRun (S : SortSlice) : Except String BackupRunsList → Except String BackupItem
  | .error e => .error e
  | .ok backupRunsList =>
    if h : backupRunsList.items = [] then
      .error "No backup runs found"
    else
      .ok ((S.sort startedAfter backupRunsList.items).head (S.sort_ne_nil startedAfter h))

/-! ## String helpers of the Go `strings` package -/

/-- Whether the characters `p` are the leading characters of `s`. -/
def startsWith : List Char → List Char → Bool
  | _, [] => true
  | [], _ :: _ => false
  | c :: s, p :: ps => decide (c = p) && startsWith s ps

/-- Whether `sub` occurs in `s` as a contiguous run of characters. -/
def containsChars : List Char → List Char → Bool
  | [], sub => sub.isEmpty
  | c :: s, sub => startsWith (c :: s) sub || containsChars s sub

/-- Go `strings.Contains(s, substr)`. -/
def stringsContains (s substr : String) : Bool := containsChars s.toList substr.toList

/-- The scan of `strings.Replace(s, old, new, -1)` for a non-empty `old`: `skip`
counts the characters of a match that are still to be passed over. -/
def replaceChars (old new : List Char) : Nat → List Char → List Char
  | _, [] => []
  | skip + 1, _ :: s => replaceChars old new skip s
  | 0, c :: s =>
    if startsWith (c :: s) old then new ++ replaceChars old new (old.length - 1) s
    else c :: replaceChars old new 0 s

/-- Go `strings.Replace(s, old, new, -1)` for a non-empty `old`: every
non-overlapping occurrence, from the left. -/
def stringsReplace (s old new : String) : String :=
  String.mk (replaceChars old.toList new.toList 0 s.toList)

/-- The pieces of `s` between occurrences of the character `sep`. -/
def splitChars (sep : Char) : List Char → List (List Char)
  | [] => [[]]
  | c :: s =>
    if c = sep then [] :: splitChars sep s
    else
      match splitChars sep s with
      | [] => [[c]]
      | piece :: pieces => (c :: piece) :: pieces

/-- Go `strings.Split(s, ";")`. -/
def stringsSplitSemicolon (s : String) : List String :=
  (splitChars ';' s.toList).map String.mk

/-- Go `unicode.IsSpace`. -/
def isSpace (c : Char) : Bool :=
  let n := c.toNat
  (9 ≤ n && n ≤ 13) || n = 32 || n = 0x85 || n = 0xA0 || n = 0x1680 ||
    (0x2000 ≤ n && n ≤ 0x200A) || n = 0x2028 || n = 0x2029 || n = 0x202F ||
    n = 0x205F || n = 0x3000

/-- The test `strings.TrimSpace(stmt) == ""`: nothing but white space. -/
def trimSpaceIsEmpty (stmt : String) : Bool := stmt.toList.all isSpace

/-! ## `fmt.Sprintf` without operands

`log.Panicf(line)` hands the line to `fmt.Sprintf` as the format, with no
operands. The definitions below follow `doPrintf` of the Go standard library for
an empty operand list: text outside verbs is copied, and every verb is replaced
by the note the library writes for it. -/

/-- The flag loop of `doPrintf`: the characters `#`, `0`, `+`, `-` and blank
after a `%` are passed over. -/
def skipFlags : List Char → List Char
  | [] => []
  | c :: s =>
    if c = '#' ∨ c = '0' ∨ c = '+' ∨ c = '-' ∨ c = ' ' then skipFlags s else c :: s

/-- Go `parsenum` of package `fmt`, to the end of the given text: whether a
number was read, and what follows it. A number beyond 1e6 makes it give up and
move to the end. -/
def parsenum : Nat → Bool → List Char → Bool × List Char
  | _, isnum, [] => (isnum, [])
  | num, isnum, c :: s =>
    if 48 ≤ c.toNat ∧ c.toNat ≤ 57 then
      if num > 1000000 then (false, [])
      else parsenum (num * 10 + (c.toNat - 48)) true s
    else (isnum, c :: s)

/-- The position of the first `]` in the text. -/
def closingBracket : List Char → Option Nat
  | [] => none
  | c :: s => if c = ']' then some 0 else (closingBracket s).map (· + 1)

/-- Go `parseArgNumber` of package `fmt`, on a format that starts with `[`: the
number of characters the index takes, and whether it is a well formed `[n]`. -/
def parseArgNumber (s : List Char) : Nat × Bool :=
  if s.length < 3 then (1, false)
  else
    match closingBracket (s.drop 1) with
    | none => (1, false)
    | some k =>
      let parsed := parsenum 0 false ((s.drop 1).take k)
      (k + 2, parsed.1 && parsed.2.isEmpty)

/-- Go `argNumber` of package `fmt` with no operands: what follows the index,
whether an index was found, and whether the argument number is still good. No
index is in range, so an index always spoils the argument number. -/
def argNumber (s : List Char) (good : Bool) : List Char × Bool × Bool :=
  match s with
  | [] => ([], false, good)
  | c :: t =>
    if c = '[' then
      let parsed := parseArgNumber (c :: t)
      ((c :: t).drop parsed.1, parsed.2, false)
    else (c :: t, false, good)

/-- The state of `doPrintf` inside one verb: the notes written so far, the rest
of the format, and the variables `afterIndex` and `p.goodArgNum`. -/
structure VerbState where
  written : List Char
  rest : List Char
  afterIndex : Bool
  goodArgNum : Bool

/-- The width part of a verb: a `*` finds no operand and writes the bad width
note; otherwise a number is read. -/
def verbWidth (st : VerbState) : VerbState :=
  match st.rest with
  | [] => st
  | c :: t =>
    if c = '*' then
      { st with written := st.written ++ "%!(BADWIDTH)".toList, rest := t, afterIndex := false }
    else
      let parsed := parsenum 0 false (c :: t)
      { st with rest := parsed.2, goodArgNum := st.goodArgNum && !(st.afterIndex && parsed.1) }

/-- The precision part of a verb, entered on a `.`. -/
def verbPrecision (st : VerbState) : VerbState :=
  match st.rest with
  | [] => st
  | c :: t =>
    if c = '.' then
      let indexed := argNumber t (st.goodArgNum && !st.afterIndex)
      match indexed.1 with
      | [] => { st with rest := [], afterIndex := indexed.2.1, goodArgNum := indexed.2.2 }
      | d :: u =>
        if d = '*' then
          { written := st.written ++ "%!(BADPREC)".toList, rest := u, afterIndex := false,
            goodArgNum := indexed.2.2 }
        else
          { st with rest := (parsenum 0 false (d :: u)).2, afterIndex := indexed.2.1,
                    goodArgNum := indexed.2.2 }
    else st

/-- The last index look-up of a verb, made unless an index was just read. -/
def verbIndex (st : VerbState) : VerbState :=
  if st.afterIndex then st
  else
    let indexed := argNumber st.rest st.goodArgNum
    { st with rest := indexed.1, afterIndex := indexed.2.1, goodArgNum := indexed.2.2 }

/-- What `doPrintf` writes for the verb that follows a `%`, and the format left
after it. With no operands a verb other than `%` gets the missing operand note,
or the bad index note when an index was given. -/
def verbText (s : List Char) : List Char × List Char :=
  let indexed := argNumber (skipFlags s) true
  let st := verbIndex (verbPrecision (verbWidth ⟨[], indexed.1, indexed.2.1, indexed.2.2⟩))
  match st.rest with
  | [] => (st.written ++ "%!(NOVERB)".toList, [])
  | verb :: rest =>
    if verb = '%' then (st.written ++ ['%'], rest)
    else if st.goodArgNum then (st.written ++ "%!".toList ++ verb :: "(MISSING)".toList, rest)
    else (st.written ++ "%!".toList ++ verb :: "(BADINDEX)".toList, rest)

/-- The loop of `doPrintf` with no operands; `skip` counts the characters of the
current verb that are still to be passed over. -/
def doPrintf : Nat → List Char → List Char
  | _, [] => []
  | skip + 1, _ :: s => doPrintf skip s
  | 0, c :: s =>
    if c = '%' then (verbText s).1 ++ doPrintf (s.length - (verbText s).2.length) s
    else c :: doPrintf 0 s

/-- Go `fmt.Sprintf(format)` with no operands. -/
def fmtSprintf (format : String) : String := String.mk (doPrintf 0 format.toList)

/-! ## Traces and ways of ending -/

/-- A call the program makes to an external collaborator, with its arguments. -/
inductive Event where
  | insertBackupRuns (project inst : String)
  | getBackupState (project inst backupID : String)
  | sleep (seconds : Nat)
  | latestBackupRun (project inst : String)
  | restoreBackup (project inst backupID sourceProject sourceInstance : String)
  | latestOperation (project inst : String)
  | getDatabasePassword (project path : String)
  | executeCloudSQLProxy (hostName : String)
  | signalInterrupt
  | checkDatabaseConnection (user pass host database : String)
  | querySQL (stmt : String)
  deriving DecidableEq, Repr

/-- How the process ends. -/
inductive Exit where
  /-- The function `main` returns. -/
  | returned
  /-- The call `log.Fatal` prints the message and exits with status 1. -/
  | fatal (msg : String)
  /-- A call of `log.Panicln` or `log.Panicf` panics with the message it has
  formatted; nothing recovers, so the process dies. -/
  | panicked (msg : String)
  /-- The process is blocked for ever in a read. -/
  | hung
  /-- A polling loop is still polling after the last recorded answer. -/
  | stillPolling
  deriving DecidableEq, Repr

/-- What a stretch of `main` did: the calls it made, and either the value it
hands on or the way the process ended in it. -/
structure Phase (α : Type) where
  events : List Event
  result : Except Exit α

/-- A whole run of `main`. -/
structure Run where
  events : List Event
  exit : Exit
  deriving DecidableEq, Repr

/-- The event is a `GetBackupState` fetch. -/
def Event.isGetBackupState : Event → Bool
  | .getBackupState _ _ _ => true
  | _ => false

/-- The event is a `LatestOperation` fetch. -/
def Event.isLatestOperation : Event → Bool
  | .latestOperation _ _ => true
  | _ => false

/-- The event is a pause between two polls. -/
def Event.isSleep : Event → Bool
  | .sleep _ => true
  | _ => false

/-- The event is the `RestoreBackup` call. -/
def Event.isRestoreBackup : Event → Bool
  | .restoreBackup _ _ _ _ _ => true
  | _ => false

/-- The event belongs to the database step: the secret lookup, the proxy, the
connection check or a statement. -/
def Event.isDatabaseStep : Event → Bool
  | .getDatabasePassword _ _ => true
  | .executeCloudSQLProxy _ => true
  | .signalInterrupt => true
  | .checkDatabaseConnection _ _ _ _ => true
  | .querySQL _ => true
  | _ => false

/-- The event is the `CheckDatabaseConnection` call or a statement after it. -/
def Event.isDatabaseConnection : Event → Bool
  | .checkDatabaseConnection _ _ _ _ => true
  | .querySQL _ => true
  | _ => false

/-- The backup ids handed to `RestoreBackup`, in call order. -/
def restoredBackupIDs : List Event → List String
  | [] => []
  | .restoreBackup _ _ backupID _ _ :: rest => backupID :: restoredBackupIDs rest
  | _ :: rest => restoredBackupIDs rest

/-! ## The two polling loops of `main` -/

/-- The `for` loop of `main` around `GetBackupState` (create mode). The list
holds the answers of the successive `GetBackupState` calls. -/
def backupLoop (project inst backupID : String) :
    List (Except String BackupItem) → Phase Unit
  | [] => ⟨[], .error .stillPolling⟩
  | answer :: rest =>
    match answer with
    | .error err => ⟨[.getBackupState project inst backupID], .error (.fatal err)⟩
    | .ok backupRun =>
      if backupRun.status = "SUCCESSFUL" then
        ⟨[.getBackupState project inst backupID], .ok ()⟩
      else if backupRun.status = "ENQUEUED" ∨ backupRun.status = "RUNNING" ∨
          backupRun.status = "PENDING" then
        let next := backupLoop project inst backupID rest
        ⟨.getBackupState project inst backupID :: .sleep 30 :: next.events, next.result⟩
      else
        ⟨[.getBackupState project inst backupID],
          .error (.panicked ("Backup state: " ++ backupRun.status ++ "\n"))⟩

/-- The `for` loop of `main` around `LatestOperation`. The list holds the decoded
answers of the successive operation listings. -/
def restoreLoop (S : SortSlice) (project inst : String) :
    List (Except String OperationsList) → Phase Unit
  | [] => ⟨[], .error .stillPolling⟩
  | answer :: rest =>
    match LatestOperation S answer with
    | .error err => ⟨[.latestOperation project inst], .error (.fatal err)⟩
    | .ok latestOperation =>
      if latestOperation.status = "DONE" then
        ⟨[.latestOperation project inst], .ok ()⟩
      else if latestOperation.status = "RUNNING" ∨ latestOperation.status = "PENDING" then
        let next := restoreLoop S project inst rest
        ⟨.latestOperation project inst :: .sleep 30 :: next.events, next.result⟩
      else
        ⟨[.latestOperation project inst],
          .error (.panicked ("Restore state: " ++ latestOperation.status ++ "\n"))⟩

/-! ## `ExecuteCloudSQLProxy`

The subprocess is described by what its output pipe delivers. Time is counted in
milliseconds from the creation of the timer. A call of `reader.ReadString` blocks
until the next line has arrived; the `select` statement looks at the timer only
between two reads. -/

/-- What the output pipe does once the recorded lines have been read. -/
inductive StreamEnd where
  /-- The pipe is closed: every further read returns `io.EOF` at once. -/
  | eof
  /-- The next read fails with an error other than `io.EOF`. -/
  | readError (err : String)
  /-- The pipe stays open and nothing more is written to it. -/
  | silent
  deriving DecidableEq, Repr

/-- The subprocess started by `exec.Command("cloud-sql-proxy", hostName, ...)`.
A line is a string as `ReadString` returns it, delimiter included, paired with
the time at which the read that returns it can complete. -/
structure ProxyProcess where
  startError : Option String := none
  lines : List (Nat × String) := []
  ending : StreamEnd := .eof
  deriving DecidableEq, Repr

/-- How `ExecuteCloudSQLProxy` is left, or fails to be left. -/
inductive ProxyOutcome where
  /-- The statement `return nil, err` after `cmd.Start()`. -/
  | startFailed (err : String)
  /-- The statement `return nil, err` after `reader.ReadString`. -/
  | readFailed (err : String)
  /-- The ready marker was read: `break loop`, then `return cmd.Process, nil`. -/
  | ready
  /-- The error marker was read: `log.Panicf(line)` panics; `carried` is the
  value it panics with, `fmt.Sprintf(line)`. -/
  | errored (carried : String)
  /-- The timer case ran to its `break loop`, then `return cmd.Process, nil`;
  `bufferedOutput` is what `io.Copy(os.Stdout, reader)` copied. -/
  | timedOut (bufferedOutput : String)
  /-- The call of `reader.ReadString` never returns. -/
  | blockedInRead
  /-- The call of `io.Copy(os.Stdout, reader)` in the timer case never returns. -/
  | blockedInCopy
  deriving DecidableEq, Repr

/-- The outcome of `ExecuteCloudSQLProxy`, the number of lines its loop obtained
from `ReadString`, and whether `cmd.Process.Signal(os.Interrupt)` was executed. -/
structure ProxyResult where
  outcome : ProxyOutcome
  linesRead : Nat
  signalled : Bool
  deriving DecidableEq, Repr

/-- The duration of `time.NewTimer(5 * time.Second)`, in milliseconds. -/
def deadline : Nat := 5000

/-- The marker of a successful start. -/
def readyMarker : String := "is ready for new connections!"

/-- The marker of a failure. -/
def errorMarker : String := "error"

/-- The text of the given lines, one after the other. -/
def concatLines : List (Nat × String) → String
  | [] => ""
  | (_, line) :: rest => line ++ concatLines rest

/-- The `case <-timer.C` branch: `io.Copy` drains the pipe until it ends, then
the interrupt is sent and the loop is left. -/
def timerCase (ending : StreamEnd) (remaining : List (Nat × String)) (linesRead : Nat) :
    ProxyResult :=
  match ending with
  | .silent => ⟨.blockedInCopy, linesRead, false⟩
  | _ => ⟨.timedOut (concatLines remaining), linesRead, true⟩

/-- The labelled `for`/`select` loop of `ExecuteCloudSQLProxy`; `now` is the time
of the current `select`. On a closed pipe `ReadString` returns the empty string
with `io.EOF`, which holds no marker, so the loop spins until the timer fires. -/
def readinessLoop (ending : StreamEnd) : Nat → Nat → List (Nat × String) → ProxyResult
  | now, linesRead, [] =>
    if deadline ≤ now then timerCase ending [] linesRead
    else
      match ending with
      | .eof => timerCase .eof [] linesRead
      | .readError err => ⟨.readFailed err, linesRead, false⟩
      | .silent => ⟨.blockedInRead, linesRead, false⟩
  | now, linesRead, (arrival, line) :: rest =>
    if deadline ≤ now then timerCase ending ((arrival, line) :: rest) linesRead
    else if stringsContains line readyMarker then ⟨.ready, linesRead + 1, false⟩
    else if stringsContains line errorMarker then
      ⟨.errored (fmtSprintf line), linesRead + 1, false⟩
    else readinessLoop ending (max now arrival) (linesRead + 1) rest

/-- Go function `ExecuteCloudSQLProxy`, given the subprocess it starts. -/
def ExecuteCloudSQLProxy (proxy : ProxyProcess) : ProxyResult :=
  match proxy.startError with
  | some err => ⟨.startFailed err, 0, false⟩
  | none => readinessLoop proxy.ending 0 0 proxy.lines

/-! ## `main` -/

/-- The command line flags of `main`, with their defaults. -/
structure Flags where
  createBackup : Bool := false
  sourceProject : String := ""
  sourceInstance : String := ""
  targetProject : String := ""
  targetInstance : String := ""
  targetRegion : String := ""
  database : String := ""
  username : String := ""
  passwordPath : String := ""
  deriving DecidableEq, Repr

/-- The answers of the external collaborators during one run. A failure of
`getAuthToken` ends the process through `log.Fatal` exactly as `main` does with
a returned error, so it is counted among the `.error` answers. -/
structure World where
  /-- Answer of `InsertBackupRuns`. -/
  insertBackupRuns : Except String InsertResult := .ok {}
  /-- Answers of the successive `GetBackupState` calls. -/
  getBackupState : List (Except String BackupItem) := []
  /-- Decoded backup listing read by `LatestBackupRun`. -/
  backupRunsList : Except String BackupRunsList := .ok {}
  /-- Answer of `RestoreBackup`. -/
  restoreBackup : Except String PostResponse := .ok {}
  /-- Decoded operation listings read by the successive `LatestOperation` calls. -/
  operationsLists : List (Except String OperationsList) := []
  /-- Answer of `GetDatabasePassword`. -/
  getDatabasePassword : Except String String := .ok ""
  /-- The subprocess started by `ExecuteCloudSQLProxy`. -/
  proxy : ProxyProcess := {}
  /-- Answer of `CheckDatabaseConnection`. -/
  checkDatabaseConnection : Except String Unit := .ok ()
  /-- Answer of `QuerySQL` to a statement. -/
  querySQL : String → Except String Unit := fun _ => .ok ()

/-- The statement text `main` builds for the database named by the flag. -/
def buildQuery (flags : Flags) : String :=
  if flags.database = "massimo_db" then
    let query := "UPDATE `assets` SET `resource` = REPLACE(`resource`, 'source_project', 'target_project') WHERE `resource` LIKE '%source_project%';"
      ++ "UPDATE `asset_storages` SET `bucket_name` = REPLACE(`bucket_name`, 'source_project', 'target_project') WHERE `bucket_name` LIKE '%source_project%';"
      ++ "UPDATE `asset_images` SET `thumbnail_url` = REPLACE(`thumbnail_url`, 'source_project', 'target_project') WHERE `thumbnail_url` LIKE '%source_project%';"
      ++ "SELECT * FROM asset_storages ORDER BY `id` LIMIT 300 OFFSET 0;"
    let query := stringsReplace query "source_project" flags.sourceProject
    stringsReplace query "target_project" flags.targetProject
  else if flags.database = "layout_service" then
    let query := "UPDATE `layouts` SET `layout` = REPLACE(`layout`, 'source_project', 'target_project') WHERE `layout` LIKE '%source_project%';"
      ++ "SELECT * FROM layouts ORDER BY `id` LIMIT 300 OFFSET 0;"
    let query := stringsReplace query "source_project" flags.sourceProject
    stringsReplace query "target_project" flags.targetProject
  else ""

/-- The loop of `main` over the statements: blank ones are skipped, the first
failing `QuerySQL` ends the process. -/
def runStatements (querySQL : String → Except String Unit) : List String → Run
  | [] => ⟨[], .returned⟩
  | stmt :: rest =>
    if trimSpaceIsEmpty stmt then runStatements querySQL rest
    else
      match querySQL stmt with
      | .error err => ⟨[.querySQL stmt], .fatal err⟩
      | .ok () =>
        let next := runStatements querySQL rest
        ⟨.querySQL stmt :: next.events, next.exit⟩

/-- The first `if`/`else` of `main`: create a backup and poll it, or take the
latest existing one. Hands on the backup id. -/
def backupStep (S : SortSlice) (flags : Flags) (w : World) : Phase String :=
  if flags.createBackup then
    match w.insertBackupRuns with
    | .error err =>
      ⟨[.insertBackupRuns flags.sourceProject flags.sourceInstance], .error (.fatal err)⟩
    | .ok backupAction =>
      let loop := backupLoop flags.sourceProject flags.sourceInstance
        backupAction.backupContext.backupID w.getBackupState
      ⟨.insertBackupRuns flags.sourceProject flags.sourceInstance :: loop.events,
        loop.result.map fun _ => backupAction.backupContext.backupID⟩
  else
    match LatestBackupRun S w.backupRunsList with
    | .error err =>
      ⟨[.latestBackupRun flags.sourceProject flags.sourceInstance], .error (.fatal err)⟩
    | .ok latestBackupRun =>
      ⟨[.latestBackupRun flags.sourceProject flags.sourceInstance], .ok latestBackupRun.backupID⟩

/-- The `RestoreBackup` call of `main` and the polling loop after it. -/
def restoreStep (S : SortSlice) (flags : Flags) (w : World) (backupID : String) : Phase Unit :=
  match w.restoreBackup with
  | .error err =>
    ⟨[.restoreBackup flags.targetProject flags.targetInstance backupID flags.sourceProject
        flags.sourceInstance], .error (.fatal err)⟩
  | .ok _ =>
    let loop := restoreLoop S flags.targetProject flags.targetInstance w.operationsLists
    ⟨.restoreBackup flags.targetProject flags.targetInstance backupID flags.sourceProject
        flags.sourceInstance :: loop.events, loop.result⟩

/-- The part of `main` from `CheckDatabaseConnection` on. -/
def connectAndModify (flags : Flags) (w : World) (password host : String) : Run :=
  match w.checkDatabaseConnection with
  | .error err =>
    ⟨[.checkDatabaseConnection flags.username password host flags.database], .fatal err⟩
  | .ok () =>
    let statements := runStatements w.querySQL (stringsSplitSemicolon (buildQuery flags))
    ⟨.checkDatabaseConnection flags.username password host flags.database :: statements.events,
      statements.exit⟩

/-- The last `if` of `main`: with user name, password path and database given,
fetch the password, start the proxy, connect and run the statements. -/
def databaseStep (flags : Flags) (w : World) : Run :=
  if flags.username ≠ "" ∧ flags.passwordPath ≠ "" ∧ flags.database ≠ "" then
    match w.getDatabasePassword with
    | .error err =>
      ⟨[.getDatabasePassword flags.targetProject flags.passwordPath], .fatal err⟩
    | .ok password =>
      let host := flags.targetProject ++ ":" ++ flags.targetRegion ++ ":" ++ flags.targetInstance
      let proxy := ExecuteCloudSQLProxy w.proxy
      let events := [Event.getDatabasePassword flags.targetProject flags.passwordPath,
        Event.executeCloudSQLProxy host] ++ (if proxy.signalled then [Event.signalInterrupt] else [])
      match proxy.outcome with
      | .startFailed err => ⟨events, .fatal err⟩
      | .readFailed err => ⟨events, .fatal err⟩
      | .errored carried => ⟨events, .panicked carried⟩
      | .blockedInRead => ⟨events, .hung⟩
      | .blockedInCopy => ⟨events, .hung⟩
      | .ready =>
        let rest := connectAndModify flags w password host
        ⟨events ++ rest.events, rest.exit⟩
      | .timedOut _ =>
        let rest := connectAndModify flags w password host
        ⟨events ++ rest.events, rest.exit⟩
  else ⟨[], .returned⟩

/-- Go function `main`. -/
def main (S : SortSlice) (flags : Flags) (w : World) : Run :=
  if flags.targetProject = "" ∨ flags.targetInstance = "" ∨ flags.sourceProject = "" ∨
      flags.sourceInstance = "" then
    ⟨[], .fatal "Error: Parameter 'target-project', 'target-Database', 'source-project' and 'source-Database' are required"⟩
  else
    let backup := backupStep S flags w
    match backup.result with
    | .error exit => ⟨backup.events, exit⟩
    | .ok backupID =>
      let restore := restoreStep S flags w backupID
      match restore.result with
      | .error exit => ⟨backup.events ++ restore.events, exit⟩
      | .ok () =>
        let db := databaseStep flags w
        ⟨backup.events ++ restore.events ++ db.events, db.exit⟩

/-! ## Vocabulary of the statements -/

/-- The trace of `n` polls that each found a retry status: a fetch, then the
pause of 30 seconds. -/
def pollAgain (fetch : Event) : Nat → List Event
  | 0 => []
  | n + 1 => fetch :: .sleep 30 :: pollAgain fetch n

/-- The four required flags are given, so `main` gets past its first check. -/
abbrev Flags.requiredGiven (flags : Flags) : Prop :=
  ¬ (flags.targetProject = "" ∨ flags.targetInstance = "" ∨ flags.sourceProject = "" ∨
    flags.sourceInstance = "")

/-! ## Example runs -/

/-- Flags of a reuse-mode run that also asks for the database step. -/
def reuseFlags : Flags :=
  { sourceProject := "src", sourceInstance := "db", targetProject := "dst",
    targetInstance := "db", targetRegion := "asia-east1", database := "inventory",
    username := "admin", passwordPath := "db-password" }

/-- Flags of a create-mode run that also asks for the database step. -/
def createFlags : Flags := { reuseFlags with createBackup := true }

/-- Three backups of the source instance, the second one the most recent. -/
def threeBackups : BackupRunsList :=
  { items := [{ backupID := "101", status := "SUCCESSFUL", startTime := 1000 },
      { backupID := "103", status := "SUCCESSFUL", startTime := 3000 },
      { backupID := "102", status := "SUCCESSFUL", startTime := 2000 }] }

/-- An operation listing whose only restore operation has the given status,
next to a more recent operation of another type. -/
def restoreListing (status : String) : Except String OperationsList :=
  .ok { items := [{ status := "DONE", operationType := "UPDATE", insertTime := 900 },
      { status := status, operationType := "RESTORE_VOLUME", insertTime := 500 }] }

/-- A created backup that is seen `RUNNING`, then `FAILED`. -/
def failedBackupWorld : World :=
  { insertBackupRuns := .ok { status := "PENDING", backupContext := { backupID := "104" } },
    getBackupState := [.ok { status := "RUNNING" }, .ok { status := "FAILED" },
      .ok { status := "SUCCESSFUL" }] }

/-- A restore that is seen `PENDING`, then with an unknown status. -/
def failedRestoreWorld : World :=
  { backupRunsList := .ok threeBackups,
    operationsLists := [restoreListing "PENDING", restoreListing "SQL_OPERATION_STATUS_UNSPECIFIED",
      restoreListing "DONE"] }

/-- An instance that only ever saw an update and an export. -/
def noRestoreWorld : World :=
  { backupRunsList := .ok threeBackups,
    operationsLists := [.ok { items := [{ status := "DONE", operationType := "UPDATE" },
      { status := "RUNNING", operationType := "EXPORT" }] }, restoreListing "DONE"] }

/-- A line that holds both markers. -/
def recoveredLine : String :=
  "error dialing instance, retried; the proxy is ready for new connections!\n"

/-- A line that holds the error marker and a percent sign. -/
def quotaLine : String := "error: quota at 100%, request denied\n"

/-- A proxy that starts, and later prints a line with the error marker. -/
def startedProxy : ProxyProcess :=
  { lines := [(80, "Authorizing with Application Default Credentials\n"),
      (150, "The proxy has started successfully and is ready for new connections!\n"),
      (200, "error: too late\n")],
    ending := .silent }

/-- A proxy that reports a refused permission, and later prints the ready
marker. -/
def deniedProxy : ProxyProcess :=
  { lines := [(80, "Authorizing with Application Default Credentials\n"),
      (150, "error: permission denied\n"), (200, "is ready for new connections!\n")],
    ending := .silent }

/-- A proxy that prints one line without a marker to its standard output and
exits. -/
def exitedProxy : ProxyProcess :=
  { lines := [(80, "Authorizing with Application Default Credentials\n")], ending := .eof }

/-- A finished restore, a proxy that exited, and a database that cannot be
reached through it. -/
def exitedProxyWorld : World :=
  { backupRunsList := .ok threeBackups,
    operationsLists := [restoreListing "DONE"],
    getDatabasePassword := .ok "secret",
    proxy := exitedProxy,
    checkDatabaseConnection := .error "dial unix /cloudsql/dst:asia-east1:db: connect: connection refused" }

/-- A finished restore and a proxy that reports a refused permission. -/
def deniedProxyWorld : World :=
  { backupRunsList := .ok threeBackups,
    operationsLists := [restoreListing "DONE"],
    getDatabasePassword := .ok "secret",
    proxy := deniedProxy }

/-! ## Lemmas on the polling loops -/

theorem backupLoop_retries (project inst backupID : String) (retries : List BackupItem)
    (tail : List (Except String BackupItem))
    (hr : ∀ r ∈ retries, r.status ∈ ["ENQUEUED", "RUNNING", "PENDING"]) :
    (backupLoop project inst backupID (retries.map .ok ++ tail)).events =
        pollAgain (.getBackupState project inst backupID) retries.length ++
          (backupLoop project inst backupID tail).events ∧
      (backupLoop project inst backupID (retries.map .ok ++ tail)).result =
        (backupLoop project inst backupID tail).result := by
  induction retries with
  | nil => simp [pollAgain]
  | cons r rs ih =>
    have hrs : ∀ x ∈ rs, x.status ∈ ["ENQUEUED", "RUNNING", "PENDING"] :=
      fun x hx => hr x (List.mem_cons_of_mem _ hx)
    have hretry : r.status = "ENQUEUED" ∨ r.status = "RUNNING" ∨ r.status = "PENDING" := by
      simpa using hr r (List.mem_cons_self _ _)
    have hns : r.status ≠ "SUCCESSFUL" := by
      rcases hretry with h | h | h <;> rw [h] <;> decide
    obtain ⟨ihe, ihr⟩ := ih hrs
    simp only [List.map_cons, List.cons_append, backupLoop, if_neg hns, if_pos hretry,
      List.length_cons, pollAgain]
    exact ⟨congrArg (fun l => _ :: _ :: l) ihe, ihr⟩

theorem backupLoop_success (project inst backupID : String) (last : BackupItem)
    (more : List (Except String BackupItem)) (h : last.status = "SUCCESSFUL") :
    (backupLoop project inst backupID (.ok last :: more)).events =
        [.getBackupState project inst backupID] ∧
      (backupLoop project inst backupID (.ok last :: more)).result = .ok () := by
  simp [backupLoop, h]

theorem backupLoop_unexpected (project inst backupID : String) (bad : BackupItem)
    (more : List (Except String BackupItem))
    (h : bad.status ∉ ["SUCCESSFUL", "ENQUEUED", "RUNNING", "PENDING"]) :
    (backupLoop project inst backupID (.ok bad :: more)).events =
        [.getBackupState project inst backupID] ∧
      (backupLoop project inst backupID (.ok bad :: more)).result =
        .error (.panicked ("Backup state: " ++ bad.status ++ "\n")) := by
  have h4 : ¬ (bad.status = "SUCCESSFUL" ∨ bad.status = "ENQUEUED" ∨ bad.status = "RUNNING" ∨
      bad.status = "PENDING") := by simpa using h
  have hns : bad.status ≠ "SUCCESSFUL" := fun e => h4 (Or.inl e)
  have hnr : ¬ (bad.status = "ENQUEUED" ∨ bad.status = "RUNNING" ∨ bad.status = "PENDING") :=
    fun e => h4 (Or.inr e)
  simp only [backupLoop, if_neg hns, if_neg hnr, and_self]

theorem restoreLoop_retries (S : SortSlice) (project inst : String)
    (retries tail : List (Except String OperationsList))
    (hr : ∀ a ∈ retries, ∃ op, LatestOperation S a = .ok op ∧ op.status ∈ ["RUNNING", "PENDING"]) :
    (restoreLoop S project inst (retries ++ tail)).events =
        pollAgain (.latestOperation project inst) retries.length ++
          (restoreLoop S project inst tail).events ∧
      (restoreLoop S project inst (retries ++ tail)).result =
        (restoreLoop S project inst tail).result := by
  induction retries with
  | nil => simp [pollAgain]
  | cons a rs ih =>
    have hrs : ∀ x ∈ rs, ∃ op, LatestOperation S x = .ok op ∧ op.status ∈ ["RUNNING", "PENDING"] :=
      fun x hx => hr x (List.mem_cons_of_mem _ hx)
    obtain ⟨op, hop, hmem⟩ := hr a (List.mem_cons_self _ _)
    have hretry : op.status = "RUNNING" ∨ op.status = "PENDING" := by simpa using hmem
    have hns : op.status ≠ "DONE" := by
      rcases hretry with h | h <;> rw [h] <;> decide
    obtain ⟨ihe, ihr⟩ := ih hrs
    simp only [List.cons_append, restoreLoop, hop, if_neg hns, if_pos hretry,
      List.length_cons, pollAgain]
    exact ⟨congrArg (fun l => _ :: _ :: l) ihe, ihr⟩

theorem restoreLoop_success (S : SortSlice) (project inst : String)
    (last : Except String OperationsList) (more : List (Except String OperationsList))
    (op : Operation) (hop : LatestOperation S last = .ok op) (h : op.status = "DONE") :
    (restoreLoop S project inst (last :: more)).events = [.latestOperation project inst] ∧
      (restoreLoop S project inst (last :: more)).result = .ok () := by
  simp [restoreLoop, hop, h]

theorem restoreLoop_unexpected (S : SortSlice) (project inst : String)
    (bad : Except String OperationsList) (more : List (Except String OperationsList))
    (op : Operation) (hop : LatestOperation S bad = .ok op)
    (h : op.status ∉ ["DONE", "RUNNING", "PENDING"]) :
    (restoreLoop S project inst (bad :: more)).events = [.latestOperation project inst] ∧
      (restoreLoop S project inst (bad :: more)).result =
        .error (.panicked ("Restore state: " ++ op.status ++ "\n")) := by
  have h3 : ¬ (op.status = "DONE" ∨ op.status = "RUNNING" ∨ op.status = "PENDING") := by
    simpa using h
  have hns : op.status ≠ "DONE" := fun e => h3 (Or.inl e)
  have hnr : ¬ (op.status = "RUNNING" ∨ op.status = "PENDING") := fun e => h3 (Or.inr e)
  simp only [restoreLoop, hop, if_neg hns, if_neg hnr, and_self]

theorem countP_getBackupState_pollAgain (project inst backupID : String) (n : Nat) :
    (pollAgain (.getBackupState project inst backupID) n).countP Event.isGetBackupState = n := by
  induction n with
  | zero => rfl
  | succ n ih => simp [pollAgain, Event.isGetBackupState, Event.isSleep, ih]

theorem countP_latestOperation_pollAgain (project inst : String) (n : Nat) :
    (pollAgain (.latestOperation project inst) n).countP Event.isLatestOperation = n := by
  induction n with
  | zero => rfl
  | succ n ih => simp [pollAgain, Event.isLatestOperation, ih]

theorem countP_latestOperation_of_not {l : List Event}
    (h : ∀ e ∈ l, e.isLatestOperation = false) : l.countP Event.isLatestOperation = 0 := by
  rw [List.countP_eq_zero]
  intro e he
  simp [h e he]

/-- Every event of the backup loop is a `GetBackupState` fetch or a pause. -/
theorem backupLoop_events (project inst backupID : String)
    (answers : List (Except String BackupItem)) :
    ∀ e ∈ (backupLoop project inst backupID answers).events,
      e = .getBackupState project inst backupID ∨ e = .sleep 30 := by
  induction answers with
  | nil => simp [backupLoop]
  | cons a rest ih =>
    intro e he
    cases a with
    | error err => simp [backupLoop] at he; exact Or.inl he
    | ok backupRun =>
      simp only [backupLoop] at he
      split at he
      · simp at he; exact Or.inl he
      · split at he
        · simp only [List.mem_cons] at he
          rcases he with he | he | he
          · exact Or.inl he
          · exact Or.inr he
          · exact ih e he
        · simp at he; exact Or.inl he

/-- Every event of the restore loop is a `LatestOperation` fetch or a pause. -/
theorem restoreLoop_events (S : SortSlice) (project inst : String)
    (answers : List (Except String OperationsList)) :
    ∀ e ∈ (restoreLoop S project inst answers).events,
      e = .latestOperation project inst ∨ e = .sleep 30 := by
  induction answers with
  | nil => simp [restoreLoop]
  | cons a rest ih =>
    intro e he
    simp only [restoreLoop] at he
    split at he
    · simp at he; exact Or.inl he
    · split at he
      · simp at he; exact Or.inl he
      · split at he
        · simp only [List.mem_cons] at he
          rcases he with he | he | he
          · exact Or.inl he
          · exact Or.inr he
          · exact ih e he
        · simp at he; exact Or.inl he

/-! ## Lemmas on `main` -/

theorem main_of_backup_error (S : SortSlice) (flags : Flags) (w : World) (exit : Exit)
    (hreq : flags.requiredGiven) (h : (backupStep S flags w).result = .error exit) :
    main S flags w = ⟨(backupStep S flags w).events, exit⟩ := by
  simp only [main, if_neg hreq, h]

theorem main_of_restore_error (S : SortSlice) (flags : Flags) (w : World) (backupID : String)
    (exit : Exit) (hreq : flags.requiredGiven)
    (hb : (backupStep S flags w).result = .ok backupID)
    (hr : (restoreStep S flags w backupID).result = .error exit) :
    main S flags w =
      ⟨(backupStep S flags w).events ++ (restoreStep S flags w backupID).events, exit⟩ := by
  simp only [main, if_neg hreq, hb, hr]

theorem main_of_restore_ok (S : SortSlice) (flags : Flags) (w : World) (backupID : String)
    (hreq : flags.requiredGiven)
    (hb : (backupStep S flags w).result = .ok backupID)
    (hr : (restoreStep S flags w backupID).result = .ok ()) :
    main S flags w =
      ⟨(backupStep S flags w).events ++ (restoreStep S flags w backupID).events ++
        (databaseStep flags w).events, (databaseStep flags w).exit⟩ := by
  simp only [main, if_neg hreq, hb, hr]

theorem runStatements_events (querySQL : String → Except String Unit) (stmts : List String) :
    ∀ e ∈ (runStatements querySQL stmts).events, e.isDatabaseConnection = true := by
  induction stmts with
  | nil => simp [runStatements]
  | cons stmt rest ih =>
    intro e he
    simp only [runStatements] at he
    split at he
    · exact ih e he
    · split at he
      · simp at he; subst he; rfl
      · simp only [List.mem_cons] at he
        rcases he with he | he
        · subst he; rfl
        · exact ih e he

theorem connectAndModify_events (flags : Flags) (w : World) (password host : String) :
    ∀ e ∈ (connectAndModify flags w password host).events, e.isDatabaseConnection = true := by
  intro e he
  simp only [connectAndModify] at he
  split at he
  · simp at he; subst he; rfl
  · simp only [List.mem_cons] at he
    rcases he with he | he
    · subst he; rfl
    · exact runStatements_events _ _ e he

theorem isDatabaseStep_of_isDatabaseConnection {e : Event} (h : e.isDatabaseConnection = true) :
    e.isDatabaseStep = true := by
  cases e <;> simp_all [Event.isDatabaseConnection, Event.isDatabaseStep]

/-- Every event of the database step belongs to it. -/
theorem databaseStep_events (flags : Flags) (w : World) :
    ∀ e ∈ (databaseStep flags w).events, e.isDatabaseStep = true := by
  intro e he
  simp only [databaseStep] at he
  split at he
  · split at he
    · simp at he; subst he; rfl
    · have hpre : ∀ x ∈ [Event.getDatabasePassword flags.targetProject flags.passwordPath,
          Event.executeCloudSQLProxy (flags.targetProject ++ ":" ++ flags.targetRegion ++ ":" ++
            flags.targetInstance)] ++
          (if (ExecuteCloudSQLProxy w.proxy).signalled then [Event.signalInterrupt] else []),
          x.isDatabaseStep = true := by
        intro x hx
        simp only [List.mem_append, List.mem_cons, List.mem_singleton] at hx
        rcases hx with (hx | hx | hx) | hx
        · subst hx; rfl
        · subst hx; rfl
        · simp at hx
        · split at hx
          · simp at hx; subst hx; rfl
          · simp at hx
      split at he
      all_goals first
        | exact hpre e he
        | (rcases List.mem_append.1 he with h | h
           · exact hpre e h
           · exact isDatabaseStep_of_isDatabaseConnection (connectAndModify_events _ _ _ _ e h))
  · simp at he


/-! ## The claims -/

/-- C1: for each of the two polling loops of `main`, when the statuses fetched
are zero or more retry values (`ENQUEUED`, `RUNNING`, `PENDING` for the backup
loop; `RUNNING`, `PENDING` for the restore loop) followed by one success value
(`SUCCESSFUL`, respectively `DONE`), the loop ends with success, its trace is one
fetch and one pause per retry value followed by a single fetch, and so it has
issued exactly as many fetches as the sequence has elements, whatever answers
would have come afterwards. -/
theorem polling_loops_succeed_after_retries (S : SortSlice) (project inst backupID : String)
    (retries : List BackupItem) (last : BackupItem) (more : List (Except String BackupItem))
    (opRetries : List (Except String OperationsList)) (opLast : Except String OperationsList)
    (opMore : List (Except String OperationsList)) (done : Operation)
    (hretries : ∀ r ∈ retries, r.status ∈ ["ENQUEUED", "RUNNING", "PENDING"])
    (hlast : last.status = "SUCCESSFUL")
    (hopRetries : ∀ a ∈ opRetries,
      ∃ op, LatestOperation S a = .ok op ∧ op.status ∈ ["RUNNING", "PENDING"])
    (hopLast : LatestOperation S opLast = .ok done) (hdone : done.status = "DONE") :
    ((backupLoop project inst backupID (retries.map .ok ++ .ok last :: more)).result = .ok () ∧
      (backupLoop project inst backupID (retries.map .ok ++ .ok last :: more)).events =
        pollAgain (.getBackupState project inst backupID) retries.length ++
          [.getBackupState project inst backupID] ∧
      (backupLoop project inst backupID (retries.map .ok ++ .ok last :: more)).events.countP
        Event.isGetBackupState = (retries ++ [last]).length) ∧
    ((restoreLoop S project inst (opRetries ++ opLast :: opMore)).result = .ok () ∧
      (restoreLoop S project inst (opRetries ++ opLast :: opMore)).events =
        pollAgain (.latestOperation project inst) opRetries.length ++
          [.latestOperation project inst] ∧
      (restoreLoop S project inst (opRetries ++ opLast :: opMore)).events.countP
        Event.isLatestOperation = (opRetries ++ [opLast]).length) := by
  obtain ⟨be, br⟩ := backupLoop_retries project inst backupID retries (.ok last :: more) hretries
  obtain ⟨bse, bsr⟩ := backupLoop_success project inst backupID last more hlast
  obtain ⟨re, rr⟩ := restoreLoop_retries S project inst opRetries (opLast :: opMore) hopRetries
  obtain ⟨rse, rsr⟩ := restoreLoop_success S project inst opLast opMore done hopLast hdone
  rw [bse] at be
  rw [bsr] at br
  rw [rse] at re
  rw [rsr] at rr
  refine ⟨⟨br, be, ?_⟩, rr, re, ?_⟩
  · rw [be, List.countP_append, countP_getBackupState_pollAgain]
    simp [Event.isGetBackupState]
  · rw [re, List.countP_append, countP_latestOperation_pollAgain]
    simp [Event.isLatestOperation]

/-- Witness of C1: a backup seen `ENQUEUED`, `RUNNING`, `SUCCESSFUL` and a
restore seen `PENDING`, `RUNNING`, `DONE` each take exactly three fetches. -/
theorem polling_loops_succeed_after_retries_witness :
    ((backupLoop "src" "db" "42" ([{ status := "ENQUEUED" }, { status := "RUNNING" }].map .ok ++
        .ok { status := "SUCCESSFUL" } :: [])).result = .ok () ∧
      (backupLoop "src" "db" "42" ([{ status := "ENQUEUED" }, { status := "RUNNING" }].map .ok ++
        .ok { status := "SUCCESSFUL" } :: [])).events.countP Event.isGetBackupState = 3) ∧
    ((restoreLoop insertionSortSlice "dst" "db"
        ([.ok { items := [{ status := "PENDING", operationType := "RESTORE_VOLUME" }] },
          .ok { items := [{ status := "RUNNING", operationType := "RESTORE_VOLUME" }] }] ++
          .ok { items := [{ status := "DONE", operationType := "RESTORE_VOLUME" }] } :: [])).result
        = .ok () ∧
      (restoreLoop insertionSortSlice "dst" "db"
        ([.ok { items := [{ status := "PENDING", operationType := "RESTORE_VOLUME" }] },
          .ok { items := [{ status := "RUNNING", operationType := "RESTORE_VOLUME" }] }] ++
          .ok { items := [{ status := "DONE", operationType := "RESTORE_VOLUME" }] } :: [])).events.countP
        Event.isLatestOperation = 3) := by
  have h := polling_loops_succeed_after_retries insertionSortSlice "src" "db" "42"
    [{ status := "ENQUEUED" }, { status := "RUNNING" }] { status := "SUCCESSFUL" } []
    [.ok { items := [{ status := "PENDING", operationType := "RESTORE_VOLUME" }] },
      .ok { items := [{ status := "RUNNING", operationType := "RESTORE_VOLUME" }] }]
    (.ok { items := [{ status := "DONE", operationType := "RESTORE_VOLUME" }] }) []
    { status := "DONE", operationType := "RESTORE_VOLUME" }
    (by decide) (by decide)
    (by
      intro a ha
      simp only [List.mem_cons, List.mem_singleton, List.not_mem_nil, or_false] at ha
      rcases ha with ha | ha
      · exact ⟨{ status := "PENDING", operationType := "RESTORE_VOLUME" }, by rw [ha]; decide,
          by decide⟩
      · exact ⟨{ status := "RUNNING", operationType := "RESTORE_VOLUME" }, by rw [ha]; decide,
          by decide⟩)
    (by decide) (by decide)
  exact ⟨⟨h.1.1, h.1.2.2⟩, h.2.1, h.2.2.2⟩


/-- The backup step calls neither `RestoreBackup`, nor `LatestOperation`, nor
anything of the database step. -/
theorem backupStep_events (S : SortSlice) (flags : Flags) (w : World) :
    ∀ e ∈ (backupStep S flags w).events,
      e.isRestoreBackup = false ∧ e.isLatestOperation = false ∧ e.isDatabaseStep = false := by
  intro e he
  simp only [backupStep] at he
  split at he
  · split at he
    · simp at he; subst he; exact ⟨rfl, rfl, rfl⟩
    · simp only [List.mem_cons] at he
      rcases he with he | he
      · subst he; exact ⟨rfl, rfl, rfl⟩
      · rcases backupLoop_events _ _ _ _ e he with h | h <;> subst h <;> exact ⟨rfl, rfl, rfl⟩
  · split at he <;> (simp at he; subst he; exact ⟨rfl, rfl, rfl⟩)

theorem not_isDatabaseStep_pollAgain (project inst : String) (n : Nat) :
    ∀ e ∈ pollAgain (.latestOperation project inst) n, e.isDatabaseStep = false := by
  induction n with
  | zero => simp [pollAgain]
  | succ n ih =>
    intro e he
    simp only [pollAgain, List.mem_cons] at he
    rcases he with he | he | he
    · subst he; rfl
    · subst he; rfl
    · exact ih e he

/-- C2: in both polling loops the first status that lies in neither the success
set nor the retry set ends the run at that poll. Backup loop (create mode): after
any number of retry statuses, such a status makes `main` panic; the trace is the
creation call, one fetch and pause per retry status and the one fetch that saw
the status, so no further fetch is issued and `RestoreBackup` is never called.
Restore loop: likewise `main` panics at the poll that saw the status, with no
further `LatestOperation` fetch and no event of the database step. -/
theorem unexpected_status_aborts_run (S : SortSlice)
    (flagsB : Flags) (wB : World) (backupAction : InsertResult) (retries : List BackupItem)
    (bad : BackupItem) (more : List (Except String BackupItem))
    (flagsR : Flags) (wR : World) (backupID : String) (resp : PostResponse)
    (opRetries : List (Except String OperationsList)) (opBad : Except String OperationsList)
    (opMore : List (Except String OperationsList)) (badOp : Operation)
    (hreqB : flagsB.requiredGiven) (hcreate : flagsB.createBackup = true)
    (hinsert : wB.insertBackupRuns = .ok backupAction)
    (hstates : wB.getBackupState = retries.map .ok ++ .ok bad :: more)
    (hretries : ∀ r ∈ retries, r.status ∈ ["ENQUEUED", "RUNNING", "PENDING"])
    (hbad : bad.status ∉ ["SUCCESSFUL", "ENQUEUED", "RUNNING", "PENDING"])
    (hreqR : flagsR.requiredGiven)
    (hbackup : (backupStep S flagsR wR).result = .ok backupID)
    (hrestore : wR.restoreBackup = .ok resp)
    (hops : wR.operationsLists = opRetries ++ opBad :: opMore)
    (hopRetries : ∀ a ∈ opRetries,
      ∃ op, LatestOperation S a = .ok op ∧ op.status ∈ ["RUNNING", "PENDING"])
    (hopBad : LatestOperation S opBad = .ok badOp)
    (hbadOp : badOp.status ∉ ["DONE", "RUNNING", "PENDING"]) :
    ((main S flagsB wB).exit = .panicked ("Backup state: " ++ bad.status ++ "\n") ∧
      (main S flagsB wB).events =
        .insertBackupRuns flagsB.sourceProject flagsB.sourceInstance ::
          (pollAgain (.getBackupState flagsB.sourceProject flagsB.sourceInstance
            backupAction.backupContext.backupID) retries.length ++
          [.getBackupState flagsB.sourceProject flagsB.sourceInstance
            backupAction.backupContext.backupID]) ∧
      (main S flagsB wB).events.countP Event.isGetBackupState = retries.length + 1 ∧
      ∀ e ∈ (main S flagsB wB).events, e.isRestoreBackup = false) ∧
    ((main S flagsR wR).exit = .panicked ("Restore state: " ++ badOp.status ++ "\n") ∧
      (main S flagsR wR).events =
        (backupStep S flagsR wR).events ++
          .restoreBackup flagsR.targetProject flagsR.targetInstance backupID
            flagsR.sourceProject flagsR.sourceInstance ::
          (pollAgain (.latestOperation flagsR.targetProject flagsR.targetInstance)
            opRetries.length ++ [.latestOperation flagsR.targetProject flagsR.targetInstance]) ∧
      (main S flagsR wR).events.countP Event.isLatestOperation = opRetries.length + 1 ∧
      ∀ e ∈ (main S flagsR wR).events, e.isDatabaseStep = false) := by
  constructor
  · obtain ⟨le, lr⟩ := backupLoop_retries flagsB.sourceProject flagsB.sourceInstance
      backupAction.backupContext.backupID retries (.ok bad :: more) hretries
    obtain ⟨ue, ur⟩ := backupLoop_unexpected flagsB.sourceProject flagsB.sourceInstance
      backupAction.backupContext.backupID bad more hbad
    rw [ue] at le
    rw [ur] at lr
    have hres : (backupStep S flagsB wB).result =
        .error (.panicked ("Backup state: " ++ bad.status ++ "\n")) := by
      simp only [backupStep, hcreate, if_true, hinsert, hstates, lr, Except.map]
    have hev : (backupStep S flagsB wB).events =
        .insertBackupRuns flagsB.sourceProject flagsB.sourceInstance ::
          (pollAgain (.getBackupState flagsB.sourceProject flagsB.sourceInstance
            backupAction.backupContext.backupID) retries.length ++
          [.getBackupState flagsB.sourceProject flagsB.sourceInstance
            backupAction.backupContext.backupID]) := by
      simp only [backupStep, hcreate, if_true, hinsert, hstates, le]
    rw [main_of_backup_error S flagsB wB _ hreqB hres]
    refine ⟨rfl, hev, ?_, ?_⟩
    · show (backupStep S flagsB wB).events.countP Event.isGetBackupState = _
      rw [hev, List.countP_cons, List.countP_append, countP_getBackupState_pollAgain]
      simp [Event.isGetBackupState]
    · intro e he
      exact (backupStep_events S flagsB wB e he).1
  · obtain ⟨le, lr⟩ := restoreLoop_retries S flagsR.targetProject flagsR.targetInstance
      opRetries (opBad :: opMore) hopRetries
    obtain ⟨ue, ur⟩ := restoreLoop_unexpected S flagsR.targetProject flagsR.targetInstance
      opBad opMore badOp hopBad hbadOp
    rw [ue] at le
    rw [ur] at lr
    have hres : (restoreStep S flagsR wR backupID).result =
        .error (.panicked ("Restore state: " ++ badOp.status ++ "\n")) := by
      simp only [restoreStep, hrestore, hops, lr]
    have hev : (restoreStep S flagsR wR backupID).events =
        .restoreBackup flagsR.targetProject flagsR.targetInstance backupID
            flagsR.sourceProject flagsR.sourceInstance ::
          (pollAgain (.latestOperation flagsR.targetProject flagsR.targetInstance)
            opRetries.length ++ [.latestOperation flagsR.targetProject flagsR.targetInstance]) := by
      simp only [restoreStep, hrestore, hops, le]
    rw [main_of_restore_error S flagsR wR backupID _ hreqR hbackup hres, hev]
    refine ⟨rfl, rfl, ?_, ?_⟩
    · show ((backupStep S flagsR wR).events ++ _).countP Event.isLatestOperation = _
      rw [List.countP_append, List.countP_cons, List.countP_append,
        countP_latestOperation_pollAgain,
        countP_latestOperation_of_not (fun e he => (backupStep_events S flagsR wR e he).2.1)]
      simp [Event.isLatestOperation]
    · intro e he
      simp only [List.mem_append, List.mem_cons, List.mem_singleton, List.not_mem_nil,
        or_false] at he
      rcases he with he | he | he | he
      · exact (backupStep_events S flagsR wR e he).2.2
      · subst he; rfl
      · exact not_isDatabaseStep_pollAgain _ _ _ e he
      · subst he; rfl


/-- Witness of C2: a created backup seen `RUNNING` then `FAILED` stops the run
after two fetches without a restore; a restore seen `PENDING` then with an
unknown status stops it after two fetches without touching the database. -/
theorem unexpected_status_aborts_run_witness :
    ((main insertionSortSlice createFlags failedBackupWorld).exit =
        .panicked "Backup state: FAILED\n" ∧
      (main insertionSortSlice createFlags failedBackupWorld).events.countP
        Event.isGetBackupState = 2 ∧
      ∀ e ∈ (main insertionSortSlice createFlags failedBackupWorld).events,
        e.isRestoreBackup = false) ∧
    ((main insertionSortSlice reuseFlags failedRestoreWorld).exit =
        .panicked "Restore state: SQL_OPERATION_STATUS_UNSPECIFIED\n" ∧
      (main insertionSortSlice reuseFlags failedRestoreWorld).events.countP
        Event.isLatestOperation = 2 ∧
      ∀ e ∈ (main insertionSortSlice reuseFlags failedRestoreWorld).events,
        e.isDatabaseStep = false) := by
  have h := unexpected_status_aborts_run insertionSortSlice
    createFlags failedBackupWorld { status := "PENDING", backupContext := { backupID := "104" } }
    [{ status := "RUNNING" }] { status := "FAILED" } [.ok { status := "SUCCESSFUL" }]
    reuseFlags failedRestoreWorld "103" {}
    [restoreListing "PENDING"] (restoreListing "SQL_OPERATION_STATUS_UNSPECIFIED")
    [restoreListing "DONE"]
    { status := "SQL_OPERATION_STATUS_UNSPECIFIED", operationType := "RESTORE_VOLUME",
      insertTime := 500 }
    (by decide) (by decide) (by decide) (by decide) (by decide) (by decide)
    (by decide) (by decide) (by decide) (by decide)
    (by
      intro a ha
      rw [List.mem_singleton] at ha
      exact ⟨{ status := "PENDING", operationType := "RESTORE_VOLUME", insertTime := 500 },
        by rw [ha]; decide, by decide⟩)
    (by decide) (by decide)
  exact ⟨⟨h.1.1, h.1.2.2.1, h.1.2.2.2⟩, h.2.1, h.2.2.2.1, h.2.2.2.2⟩


/-! ## Lemmas on the selection functions -/

theorem lessOrdering_insertedAfter : LessOrdering insertedAfter where
  irrefl := fun a => by simp [insertedAfter]
  trans := fun a b c hab hbc => by
    simp only [insertedAfter, decide_eq_true_eq] at *
    exact lt_trans hbc hab
  negTrans := fun a b c hab hbc => by
    simp only [insertedAfter, decide_eq_false_iff_not, not_lt] at *
    exact le_trans hab hbc

theorem lessOrdering_startedAfter : LessOrdering startedAfter where
  irrefl := fun a => by simp [startedAfter]
  trans := fun a b c hab hbc => by
    simp only [startedAfter, decide_eq_true_eq] at *
    exact lt_trans hbc hab
  negTrans := fun a b c hab hbc => by
    simp only [startedAfter, decide_eq_false_iff_not, not_lt] at *
    exact le_trans hab hbc

/-- The first element of a slice sorted by `sort.Slice` is an element of the
slice before which no element must sort. -/
theorem SortSlice.first_of_sort (S : SortSlice) {α : Type} (less : α → α → Bool)
    (h : LessOrdering less) (l : List α) (first : α) (rest : List α)
    (hs : S.sort less l = first :: rest) :
    first ∈ l ∧ ∀ x ∈ l, less x first = false := by
  have hp := S.perm less l
  have hsorted := S.sorted less l h
  rw [hs] at hp hsorted
  refine ⟨hp.subset (List.mem_cons_self _ _), fun x hx => ?_⟩
  have hx2 : x ∈ first :: rest := hp.symm.subset hx
  rcases List.mem_cons.1 hx2 with hx3 | hx3
  · rw [hx3]; exact h.irrefl first
  · exact (List.pairwise_cons.1 hsorted).1 x hx3

theorem mem_filterRestoreVolume (op : Operation) (l : List Operation) :
    op ∈ filterRestoreVolume l ↔ op ∈ l ∧ op.operationType = "RESTORE_VOLUME" := by
  induction l with
  | nil => simp [filterRestoreVolume]
  | cons a rest ih =>
    simp only [filterRestoreVolume]
    split
    · rename_i ha
      simp only [List.mem_cons, ih]
      constructor
      · rintro (h | h)
        · subst h; exact ⟨Or.inl rfl, ha⟩
        · exact ⟨Or.inr h.1, h.2⟩
      · rintro ⟨h | h, ht⟩
        · exact Or.inl h
        · exact Or.inr ⟨h, ht⟩
    · rename_i ha
      simp only [List.mem_cons, ih]
      constructor
      · rintro ⟨h, ht⟩; exact ⟨Or.inr h, ht⟩
      · rintro ⟨h | h, ht⟩
        · subst h; exact absurd ht ha
        · exact ⟨h, ht⟩

/-- C4: when the operation list holds at least one `RESTORE_VOLUME` entry,
`LatestOperation` returns an entry of the list whose type is `RESTORE_VOLUME` and
whose `insertTime` is not earlier than that of any `RESTORE_VOLUME` entry of the
list; an entry of another type is never returned. -/
theorem latestOperation_is_latest_restore (S : SortSlice) (list : OperationsList)
    (h : ∃ op ∈ list.items, op.operationType = "RESTORE_VOLUME") :
    ∃ r ∈ list.items, LatestOperation S (.ok list) = .ok r ∧
      r.operationType = "RESTORE_VOLUME" ∧
      ∀ op ∈ list.items, op.operationType = "RESTORE_VOLUME" → op.insertTime ≤ r.insertTime := by
  obtain ⟨op0, hop0, ht0⟩ := h
  have hmem0 : op0 ∈ filterRestoreVolume list.items := (mem_filterRestoreVolume _ _).2 ⟨hop0, ht0⟩
  cases hs : S.sort insertedAfter (filterRestoreVolume list.items) with
  | nil =>
    have hp := S.perm insertedAfter (filterRestoreVolume list.items)
    rw [hs] at hp
    rw [(List.Perm.nil_eq hp).symm] at hmem0
    exact absurd hmem0 (List.not_mem_nil _)
  | cons first rest =>
    obtain ⟨hfirst, hmax⟩ := S.first_of_sort insertedAfter lessOrdering_insertedAfter _ first rest hs
    obtain ⟨hin, htype⟩ := (mem_filterRestoreVolume _ _).1 hfirst
    refine ⟨first, hin, ?_, htype, fun op hop ht => ?_⟩
    · simp only [LatestOperation, hs]
    · have := hmax op ((mem_filterRestoreVolume _ _).2 ⟨hop, ht⟩)
      simpa [insertedAfter] using this

/-- Witness of C4: of two restore operations and a later operation of another
type, the later restore operation is returned. -/
theorem latestOperation_is_latest_restore_witness :
    ∃ r ∈ [({ status := "DONE", operationType := "RESTORE_VOLUME", insertTime := 500 } : Operation),
        { status := "DONE", operationType := "UPDATE", insertTime := 900 },
        { status := "RUNNING", operationType := "RESTORE_VOLUME", insertTime := 700 }],
      LatestOperation insertionSortSlice
        (.ok { items := [{ status := "DONE", operationType := "RESTORE_VOLUME", insertTime := 500 },
          { status := "DONE", operationType := "UPDATE", insertTime := 900 },
          { status := "RUNNING", operationType := "RESTORE_VOLUME", insertTime := 700 }] }) = .ok r ∧
      r.operationType = "RESTORE_VOLUME" ∧
      ∀ op ∈ [({ status := "DONE", operationType := "RESTORE_VOLUME", insertTime := 500 } : Operation),
          { status := "DONE", operationType := "UPDATE", insertTime := 900 },
          { status := "RUNNING", operationType := "RESTORE_VOLUME", insertTime := 700 }],
        op.operationType = "RESTORE_VOLUME" → op.insertTime ≤ r.insertTime :=
  latestOperation_is_latest_restore insertionSortSlice
    { items := [{ status := "DONE", operationType := "RESTORE_VOLUME", insertTime := 500 },
      { status := "DONE", operationType := "UPDATE", insertTime := 900 },
      { status := "RUNNING", operationType := "RESTORE_VOLUME", insertTime := 700 }] }
    ⟨{ status := "DONE", operationType := "RESTORE_VOLUME", insertTime := 500 }, by decide, by decide⟩


/-- On a non-empty listing `LatestBackupRun` returns a record of the listing
that no other record started after. -/
theorem latestBackupRun_of_ne_nil (S : SortSlice) (list : BackupRunsList)
    (hne : list.items ≠ []) :
    ∃ b ∈ list.items, LatestBackupRun S (.ok list) = .ok b ∧
      ∀ c ∈ list.items, c.startTime ≤ b.startTime := by
  have key : ∀ (sorted : List BackupItem) (hs : sorted ≠ []),
      sorted = S.sort startedAfter list.items →
      sorted.head hs ∈ list.items ∧ ∀ c ∈ list.items, startedAfter c (sorted.head hs) = false := by
    intro sorted hs heq
    cases sorted with
    | nil => exact absurd rfl hs
    | cons first rest =>
      exact S.first_of_sort startedAfter lessOrdering_startedAfter _ first rest heq.symm
  obtain ⟨hin, hmax⟩ := key _ (S.sort_ne_nil startedAfter hne) rfl
  refine ⟨_, hin, ?_, fun c hc => ?_⟩
  · simp only [LatestBackupRun, dif_neg hne]
  · simpa [startedAfter] using hmax c hc

theorem restoredBackupIDs_append (l₁ l₂ : List Event) :
    restoredBackupIDs (l₁ ++ l₂) = restoredBackupIDs l₁ ++ restoredBackupIDs l₂ := by
  induction l₁ with
  | nil => rfl
  | cons e rest ih => cases e <;> simp [restoredBackupIDs, ih]

theorem restoredBackupIDs_eq_nil (l : List Event) (h : ∀ e ∈ l, e.isRestoreBackup = false) :
    restoredBackupIDs l = [] := by
  induction l with
  | nil => rfl
  | cons e rest ih =>
    have hrest := ih (fun x hx => h x (List.mem_cons_of_mem _ hx))
    have he := h e (List.mem_cons_self _ _)
    cases e <;> simp_all [restoredBackupIDs, Event.isRestoreBackup]

/-- The restore step is the `RestoreBackup` call followed by fetches and pauses. -/
theorem restoreStep_events (S : SortSlice) (flags : Flags) (w : World) (backupID : String) :
    ∃ tail, (restoreStep S flags w backupID).events =
        .restoreBackup flags.targetProject flags.targetInstance backupID flags.sourceProject
          flags.sourceInstance :: tail ∧
      ∀ e ∈ tail, e = .latestOperation flags.targetProject flags.targetInstance ∨ e = .sleep 30 := by
  simp only [restoreStep]
  split
  · exact ⟨[], rfl, by simp⟩
  · exact ⟨_, rfl, restoreLoop_events S _ _ _⟩

/-- Once the backup step has handed on a backup id, `RestoreBackup` is called
exactly once in the run, with that id. -/
theorem main_restoredBackupIDs (S : SortSlice) (flags : Flags) (w : World) (backupID : String)
    (hreq : flags.requiredGiven) (hb : (backupStep S flags w).result = .ok backupID) :
    restoredBackupIDs (main S flags w).events = [backupID] := by
  obtain ⟨tail, htail, hkind⟩ := restoreStep_events S flags w backupID
  have h1 : restoredBackupIDs (backupStep S flags w).events = [] :=
    restoredBackupIDs_eq_nil _ (fun e he => (backupStep_events S flags w e he).1)
  have h2 : restoredBackupIDs tail = [] :=
    restoredBackupIDs_eq_nil _ (fun e he => by
      rcases hkind e he with h | h <;> subst h <;> rfl)
  have h3 : restoredBackupIDs (databaseStep flags w).events = [] :=
    restoredBackupIDs_eq_nil _ (fun e he => by
      have := databaseStep_events flags w e he
      cases e <;> simp_all [Event.isDatabaseStep, Event.isRestoreBackup])
  cases hr : (restoreStep S flags w backupID).result with
  | error exit =>
    rw [main_of_restore_error S flags w backupID exit hreq hb hr]
    simp only [restoredBackupIDs_append, htail, restoredBackupIDs, h1, h2, List.nil_append]
  | ok u =>
    rw [main_of_restore_ok S flags w backupID hreq hb hr]
    simp only [restoredBackupIDs_append, htail, restoredBackupIDs, h1, h2, h3, List.nil_append,
      List.append_nil]

/-- C3: in reuse mode (`create-backup` false), for every non-empty list of
backup records returned by the listing, `RestoreBackup` is called exactly once,
and the backup id it is given is the id of a record of the list whose startTime
is not earlier than the startTime of any record of the list. -/
theorem reuse_mode_restores_latest_backup (S : SortSlice) (flags : Flags) (w : World)
    (list : BackupRunsList) (hreq : flags.requiredGiven) (hmode : flags.createBackup = false)
    (hlist : w.backupRunsList = .ok list) (hne : list.items ≠ []) :
    ∃ b ∈ list.items, (∀ c ∈ list.items, c.startTime ≤ b.startTime) ∧
      restoredBackupIDs (main S flags w).events = [b.backupID] := by
  obtain ⟨b, hin, hb, hmax⟩ := latestBackupRun_of_ne_nil S list hne
  refine ⟨b, hin, hmax, main_restoredBackupIDs S flags w b.backupID hreq ?_⟩
  simp [backupStep, hmode, hlist, hb]

/-- Witness of C3: of three backups started at 1000, 3000 and 2000, the one
started at 3000 is restored. -/
theorem reuse_mode_restores_latest_backup_witness :
    ∃ b ∈ threeBackups.items, (∀ c ∈ threeBackups.items, c.startTime ≤ b.startTime) ∧
      restoredBackupIDs (main insertionSortSlice reuseFlags failedRestoreWorld).events =
        [b.backupID] :=
  reuse_mode_restores_latest_backup insertionSortSlice reuseFlags failedRestoreWorld threeBackups
    (by decide) (by decide) (by decide) (by decide)


/-- C8: when the backup listing is empty, `LatestBackupRun` fails with the error
"No backup runs found" and returns no record, and a reuse-mode run ends in
`log.Fatal` right after the listing, without calling `RestoreBackup`; for a
non-empty listing `LatestBackupRun` returns a record of it, so it does not fail
with that error. -/
theorem empty_backup_listing_aborts (S : SortSlice) (flags : Flags) (w : World) (kind : String)
    (list : BackupRunsList) (hreq : flags.requiredGiven) (hmode : flags.createBackup = false)
    (hempty : w.backupRunsList = .ok { kind := kind, items := [] })
    (hne : list.items ≠ []) :
    LatestBackupRun S w.backupRunsList = .error "No backup runs found" ∧
      main S flags w = ⟨[.latestBackupRun flags.sourceProject flags.sourceInstance],
        .fatal "No backup runs found"⟩ ∧
      (∀ e ∈ (main S flags w).events, e.isRestoreBackup = false) ∧
      (∃ b ∈ list.items, LatestBackupRun S (.ok list) = .ok b) ∧
      LatestBackupRun S (.ok list) ≠ .error "No backup runs found" := by
  have hlatest : LatestBackupRun S w.backupRunsList = .error "No backup runs found" := by
    rw [hempty]; simp [LatestBackupRun]
  have hres : (backupStep S flags w).result = .error (.fatal "No backup runs found") := by
    simp [backupStep, hmode, hlatest]
  have hev : (backupStep S flags w).events =
      [.latestBackupRun flags.sourceProject flags.sourceInstance] := by
    simp [backupStep, hmode, hlatest]
  have hmain := main_of_backup_error S flags w _ hreq hres
  rw [hev] at hmain
  obtain ⟨b, hin, hb, _⟩ := latestBackupRun_of_ne_nil S list hne
  refine ⟨hlatest, hmain, ?_, ⟨b, hin, hb⟩, ?_⟩
  · rw [hmain]
    intro e he
    simp only [List.mem_singleton] at he
    subst he; rfl
  · rw [hb]; intro hcontra; cases hcontra

/-- Witness of C8: a reuse-mode run against an instance without backups, and the
listing of three backups. -/
theorem empty_backup_listing_aborts_witness :
    main insertionSortSlice reuseFlags {} =
        ⟨[.latestBackupRun "src" "db"], .fatal "No backup runs found"⟩ ∧
      LatestBackupRun insertionSortSlice (.ok threeBackups) ≠ .error "No backup runs found" := by
  have h := empty_backup_listing_aborts insertionSortSlice reuseFlags {} "" threeBackups
    (by decide) (by decide) (by decide) (by decide)
  exact ⟨h.2.1, h.2.2.2.2⟩

theorem filterRestoreVolume_eq_nil (l : List Operation)
    (h : ∀ op ∈ l, op.operationType ≠ "RESTORE_VOLUME") : filterRestoreVolume l = [] := by
  induction l with
  | nil => rfl
  | cons a rest ih =>
    simp only [filterRestoreVolume, if_neg (h a (List.mem_cons_self _ _))]
    exact ih (fun op hop => h op (List.mem_cons_of_mem _ hop))

/-- C10: when the operation list holds no `RESTORE_VOLUME` entry (the empty list
included), `LatestOperation` returns the zero `Operation` and no error; the
restore loop then takes the empty status for an unexpected one: it panics after
that single fetch, without a pause or a second fetch, and `main` ends there, so
the restore is never reported successful. -/
theorem no_restore_operation_aborts (S : SortSlice) (flags : Flags) (w : World)
    (backupID : String) (resp : PostResponse) (list : OperationsList)
    (more : List (Except String OperationsList))
    (hreq : flags.requiredGiven) (hbackup : (backupStep S flags w).result = .ok backupID)
    (hrestore : w.restoreBackup = .ok resp) (hops : w.operationsLists = .ok list :: more)
    (hnone : ∀ op ∈ list.items, op.operationType ≠ "RESTORE_VOLUME") :
    LatestOperation S (.ok list) = .ok {} ∧
      (restoreLoop S flags.targetProject flags.targetInstance (.ok list :: more)).events =
        [.latestOperation flags.targetProject flags.targetInstance] ∧
      (restoreLoop S flags.targetProject flags.targetInstance (.ok list :: more)).result =
        .error (.panicked "Restore state: \n") ∧
      main S flags w =
        ⟨(backupStep S flags w).events ++
          [.restoreBackup flags.targetProject flags.targetInstance backupID flags.sourceProject
            flags.sourceInstance, .latestOperation flags.targetProject flags.targetInstance],
          .panicked "Restore state: \n"⟩ ∧
      (main S flags w).events.countP Event.isLatestOperation = 1 := by
  have hsort : S.sort insertedAfter (filterRestoreVolume list.items) = [] := by
    rw [filterRestoreVolume_eq_nil _ hnone]
    exact List.Perm.eq_nil (S.perm insertedAfter [])
  have hlatest : LatestOperation S (.ok list) = .ok {} := by
    simp only [LatestOperation, hsort]
  obtain ⟨ue, ur⟩ := restoreLoop_unexpected S flags.targetProject flags.targetInstance
    (.ok list) more {} hlatest (by decide)
  have ur2 : (restoreLoop S flags.targetProject flags.targetInstance (.ok list :: more)).result =
      .error (.panicked "Restore state: \n") := ur
  have hres : (restoreStep S flags w backupID).result = .error (.panicked "Restore state: \n") := by
    simp only [restoreStep, hrestore, hops, ur2]
  have hev : (restoreStep S flags w backupID).events =
      [.restoreBackup flags.targetProject flags.targetInstance backupID flags.sourceProject
        flags.sourceInstance, .latestOperation flags.targetProject flags.targetInstance] := by
    simp only [restoreStep, hrestore, hops, ue]
  have hmain := main_of_restore_error S flags w backupID _ hreq hbackup hres
  rw [hev] at hmain
  refine ⟨hlatest, ue, ur2, hmain, ?_⟩
  rw [hmain]
  show ((backupStep S flags w).events ++ _).countP Event.isLatestOperation = 1
  rw [List.countP_append,
    countP_latestOperation_of_not (fun e he => (backupStep_events S flags w e he).2.1)]
  simp [Event.isLatestOperation]

/-- Witness of C10: the target instance lists an update and an export only; the
run panics on the empty status after one fetch although a later listing would
have shown a finished restore. -/
theorem no_restore_operation_aborts_witness :
    main insertionSortSlice reuseFlags noRestoreWorld =
        ⟨[.latestBackupRun "src" "db", .restoreBackup "dst" "db" "103" "src" "db",
          .latestOperation "dst" "db"], .panicked "Restore state: \n"⟩ ∧
      (main insertionSortSlice reuseFlags noRestoreWorld).events.countP
        Event.isLatestOperation = 1 := by
  have h := no_restore_operation_aborts insertionSortSlice reuseFlags noRestoreWorld "103" {}
    { items := [{ status := "DONE", operationType := "UPDATE" },
      { status := "RUNNING", operationType := "EXPORT" }] } [restoreListing "DONE"]
    (by decide) (by decide) (by decide) (by decide) (by decide)
  exact ⟨h.2.2.2.1, h.2.2.2.2⟩


/-! ## Lemmas on `ExecuteCloudSQLProxy` -/

/-- Lines without a marker that arrive before the deadline are read one after
the other, and the timer has not fired when the next read starts. -/
theorem readinessLoop_skip (ending : StreamEnd) (pre tail : List (Nat × String)) :
    ∀ (now linesRead : Nat), now < deadline →
      (∀ l ∈ pre, l.1 < deadline ∧ stringsContains l.2 readyMarker = false ∧
        stringsContains l.2 errorMarker = false) →
      ∃ later, later < deadline ∧
        readinessLoop ending now linesRead (pre ++ tail) =
          readinessLoop ending later (linesRead + pre.length) tail := by
  induction pre with
  | nil => intro now linesRead hnow _; exact ⟨now, hnow, by simp⟩
  | cons l rest ih =>
    intro now linesRead hnow hpre
    obtain ⟨arrival, line⟩ := l
    obtain ⟨harr, hready, herr⟩ := hpre (arrival, line) (List.mem_cons_self _ _)
    have hmax : max now arrival < deadline := max_lt hnow harr
    obtain ⟨later, hlater, heq⟩ := ih (max now arrival) (linesRead + 1) hmax
      (fun x hx => hpre x (List.mem_cons_of_mem _ hx))
    refine ⟨later, hlater, ?_⟩
    simp only [List.cons_append, readinessLoop, if_neg (Nat.not_le.2 hnow), hready, herr,
      Bool.false_eq_true, if_false]
    have hlen : linesRead + ((arrival, line) :: rest).length = linesRead + 1 + rest.length := by
      rw [List.length_cons]; omega
    rw [hlen]
    exact heq

/-- The interrupt is sent exactly on the runs that leave through the timer case. -/
theorem readinessLoop_signalled (ending : StreamEnd) (lines : List (Nat × String)) :
    ∀ (now linesRead : Nat),
      (readinessLoop ending now linesRead lines).signalled = true ↔
        ∃ output, (readinessLoop ending now linesRead lines).outcome = .timedOut output := by
  induction lines with
  | nil =>
    intro now linesRead
    simp only [readinessLoop, timerCase]
    split
    · cases ending <;> simp
    · cases ending <;> simp
  | cons l rest ih =>
    intro now linesRead
    obtain ⟨arrival, line⟩ := l
    simp only [readinessLoop, timerCase]
    split
    · cases ending <;> simp
    · split
      · simp
      · split
        · simp
        · exact ih _ _


/-- A format without a percent sign comes out of `fmt.Sprintf` unchanged. -/
theorem doPrintf_of_no_percent (s : List Char) (h : '%' ∉ s) : doPrintf 0 s = s := by
  induction s with
  | nil => rfl
  | cons c rest ih =>
    have hc : c ≠ '%' := fun e => h (e ▸ List.mem_cons_self _ _)
    have hrest : '%' ∉ rest := fun e => h (List.mem_cons_of_mem _ e)
    simp only [doPrintf, if_neg hc, ih hrest]

theorem fmtSprintf_of_no_percent (format : String) (h : '%' ∉ format.toList) :
    fmtSprintf format = format := by
  simp only [fmtSprintf, doPrintf_of_no_percent _ h]
  rfl

/-- C5 as stated fails at two streams whose only line arrives before the
deadline. A line with both markers gives Ready, not Errored with that line,
because the ready marker is tested first. A line with the error marker and a
percent sign gives Errored, but what is carried is not that line: `log.Panicf`
takes the line for a format and panics with what `fmt.Sprintf` makes of it. -/
theorem marker_line_counterexamples :
    (stringsContains recoveredLine errorMarker = true ∧
      (ExecuteCloudSQLProxy { lines := [(100, recoveredLine)] }).outcome = .ready ∧
      (ExecuteCloudSQLProxy { lines := [(100, recoveredLine)] }).outcome ≠
        .errored recoveredLine) ∧
    (stringsContains quotaLine errorMarker = true ∧
      stringsContains quotaLine readyMarker = false ∧
      (ExecuteCloudSQLProxy { lines := [(100, quotaLine)] }).outcome =
        .errored "error: quota at 100%!,(MISSING) request denied\n" ∧
      (ExecuteCloudSQLProxy { lines := [(100, quotaLine)] }).outcome ≠ .errored quotaLine) := by
  decide

/-- C5, amended: for every proxy output stream whose lines all arrive before the
deadline, the outcome is decided by the first line that contains the ready
marker or the error marker. It is Ready when that line contains the ready
marker; it is Errored when the line contains the error marker and not the ready
marker, and then carries that very line when the line holds no percent sign.
The lines before it do not change the outcome, and the loop has read exactly the
lines up to it, none after it. -/
theorem first_marker_line_decides (ending : StreamEnd) (pre post : List (Nat × String))
    (arrival : Nat) (line : String)
    (harrive : ∀ l ∈ pre ++ (arrival, line) :: post, l.1 < deadline)
    (hpre : ∀ l ∈ pre, stringsContains l.2 readyMarker = false ∧
      stringsContains l.2 errorMarker = false)
    (hline : stringsContains line readyMarker = true ∨ stringsContains line errorMarker = true) :
    (stringsContains line readyMarker = true →
      (ExecuteCloudSQLProxy { lines := pre ++ (arrival, line) :: post, ending := ending }).outcome
        = .ready) ∧
    (stringsContains line readyMarker = false →
      ∃ carried,
        (ExecuteCloudSQLProxy { lines := pre ++ (arrival, line) :: post, ending := ending }).outcome
          = .errored carried ∧
        ('%' ∉ line.toList → carried = line)) ∧
    (ExecuteCloudSQLProxy { lines := pre ++ (arrival, line) :: post, ending := ending }).linesRead
      = pre.length + 1 := by
  have hskip : ∀ l ∈ pre, l.1 < deadline ∧ stringsContains l.2 readyMarker = false ∧
      stringsContains l.2 errorMarker = false :=
    fun l hl => ⟨harrive l (List.mem_append_left _ hl), hpre l hl⟩
  obtain ⟨later, hlater, heq⟩ := readinessLoop_skip ending pre ((arrival, line) :: post) 0 0
    (by decide) hskip
  simp only [ExecuteCloudSQLProxy, heq, readinessLoop, if_neg (Nat.not_le.2 hlater)]
  by_cases hready : stringsContains line readyMarker = true
  · simp [hready]
  · have herr : stringsContains line errorMarker = true := hline.resolve_left hready
    simp only [hready, herr, if_true, Bool.false_eq_true, if_false, false_implies, true_and,
      Nat.zero_add, and_true]
    intro _
    exact ⟨fmtSprintf line, rfl, fmtSprintf_of_no_percent line⟩

/-- Witness of C5: all lines arrive within 200 ms. After a line without marker,
the ready line gives Ready and the error line, which holds no percent sign,
gives Errored with that line; in both runs two lines were read and the line that
follows was not. -/
theorem first_marker_line_decides_witness :
    ((ExecuteCloudSQLProxy startedProxy).outcome = .ready ∧
      (ExecuteCloudSQLProxy startedProxy).linesRead = 2) ∧
    ((ExecuteCloudSQLProxy deniedProxy).outcome = .errored "error: permission denied\n" ∧
      (ExecuteCloudSQLProxy deniedProxy).linesRead = 2) := by
  have hstarted := first_marker_line_decides .silent
    [(80, "Authorizing with Application Default Credentials\n")]
    [(200, "error: too late\n")] 150
    "The proxy has started successfully and is ready for new connections!\n"
    (by decide) (by decide) (by decide)
  have hdenied := first_marker_line_decides .silent
    [(80, "Authorizing with Application Default Credentials\n")]
    [(200, "is ready for new connections!\n")] 150 "error: permission denied\n"
    (by decide) (by decide) (by decide)
  obtain ⟨carried, hcarried, hsame⟩ := hdenied.2.1 (by decide)
  rw [hsame (by decide)] at hcarried
  exact ⟨⟨hstarted.1 (by decide), hstarted.2.2⟩, hcarried, hdenied.2.2⟩

/-- The part of C6 that holds: when the proxy run ends in Errored, `main` panics
in `ExecuteCloudSQLProxy` and the database step records neither a connection
attempt nor a statement. -/
theorem databaseStep_of_errored (flags : Flags) (w : World) (line : String)
    (h : (ExecuteCloudSQLProxy w.proxy).outcome = .errored line) :
    ∀ e ∈ (databaseStep flags w).events, e.isDatabaseConnection = false := by
  intro e he
  simp only [databaseStep] at he
  split at he
  · split at he
    · simp at he; subst he; rfl
    · rw [h] at he
      simp only [List.mem_append, List.mem_cons, List.mem_singleton, List.not_mem_nil,
        or_false] at he
      rcases he with (he | he) | he
      · subst he; rfl
      · subst he; rfl
      · split at he
        · simp at he; subst he; rfl
        · simp at he
  · simp at he

/-- C6 fails on the code for TimedOut: the proxy prints one line without a
marker and exits; `ExecuteCloudSQLProxy` leaves through the timer case, sends
the interrupt and returns a nil error, and `main` goes on to call
`CheckDatabaseConnection`. -/
theorem timed_out_proxy_reaches_database_connection :
    ExecuteCloudSQLProxy exitedProxy = ⟨.timedOut "", 1, true⟩ ∧
      main insertionSortSlice reuseFlags exitedProxyWorld =
        ⟨[.latestBackupRun "src" "db", .restoreBackup "dst" "db" "103" "src" "db",
          .latestOperation "dst" "db", .getDatabasePassword "dst" "db-password",
          .executeCloudSQLProxy "dst:asia-east1:db", .signalInterrupt,
          .checkDatabaseConnection "admin" "secret" "dst:asia-east1:db" "inventory"],
          .fatal "dial unix /cloudsql/dst:asia-east1:db: connect: connection refused"⟩ := by
  decide

/-- C7 fails on the code for Errored: the line with the error marker makes
`log.Panicf` panic before `cmd.Process.Signal(os.Interrupt)` is reached, so the
run ends in Errored with no interrupt sent, and the trace of `main` holds no
interrupt either. -/
theorem errored_proxy_is_not_interrupted :
    ExecuteCloudSQLProxy deniedProxy = ⟨.errored "error: permission denied\n", 2, false⟩ ∧
      main insertionSortSlice reuseFlags deniedProxyWorld =
        ⟨[.latestBackupRun "src" "db", .restoreBackup "dst" "db" "103" "src" "db",
          .latestOperation "dst" "db", .getDatabasePassword "dst" "db-password",
          .executeCloudSQLProxy "dst:asia-east1:db"],
          .panicked "error: permission denied\n"⟩ := by
  decide

/-- C9 fails on the code: with a proxy that prints nothing and keeps its output
open, the loop is blocked in `ReadString` and never reaches the timer case, so
there is no TimedOut outcome; and a first line that arrives one minute after the
start, twelve times the deadline, is still read and classified. -/
theorem silent_proxy_is_not_timed_out :
    ExecuteCloudSQLProxy { ending := .silent } = ⟨.blockedInRead, 0, false⟩ ∧
      (ExecuteCloudSQLProxy { ending := .silent }).outcome ≠ .timedOut "" ∧
      ExecuteCloudSQLProxy { lines := [(60000, "is ready for new connections!\n")] } =
        ⟨.ready, 1, false⟩ := by
  decide


end CloudSqlSync
